import Mathlib

/-
Shallow embedding of `beamconv/detector.py` (the `Beam` class).

Modelling conventions:
* Python floats are modelled as exact rationals (ℚ); `np` float formulas are
  simplified symbolically where π cancels exactly
  (2π / radians(fwhm/60) · 1.4 = 30240 / fwhm, degrees(1.4·2π/lmax)·60 = 30240/lmax).
* Python exceptions are modelled with `Except PyErr`; an `Except.error` result
  means the exception propagates to the caller and the caller's object is left
  in its pre-call state (no partially updated object is returned).
* The harmonic-coefficient arrays themselves are opaque to every claim; we model
  a cached `blm` object by an abstract object identity (a ℕ id), allocated from
  a fresh-id counter which is threaded through the operations that may build a
  new coefficient triplet.  Two beams hold "the same triplet object" exactly
  when their `blm` fields hold the same id.
* A Python attribute that may be missing (`__blm`, a ghost's `__ghost_idx`,
  the parameters `fwhm`/`lmax`/`mmax` which admit `None`) is an `Option`.
* `Beam.__init__` stores fields in source order; the order matters because the
  `lmax` property setter reads `self.fwhm`, which `__init__` only assigns three
  lines later.  The constructor model below follows that order exactly.
-/

inductive PyErr where
  | attributeError
  | typeError
  | valueError
  | runtimeError
  | ioError
  | overflowError
deriving Repr, DecidableEq

/-- Truncation toward zero: Python `int()` applied to an exact rational. -/
def pyTrunc (q : ℚ) : ℤ := if q < 0 then ⌈q⌉ else ⌊q⌋

/-- The scalar attributes shared by primary beams and ghost beams, in the order
`Beam.__init__` assigns them.  `blm` is the lazily-cached coefficient triplet,
`none` when the `__blm` attribute does not exist. -/
structure BeamCore where
  az : ℚ
  el : ℚ
  polang : ℚ
  name : Option String
  pol : String
  btype : String
  dead : Bool
  amplitude : ℚ
  po_file : Option String
  eg_file : Option String
  cross_pol : Bool
  lmax : ℤ
  mmax : ℤ
  sensitive_freq : List ℚ
  fwhm : ℚ
  deconv_q : Bool
  normalize : Bool
  polang_error : ℚ
  idx : Option ℤ
  symmetric : Bool
  blm : Option ℕ
deriving Repr, DecidableEq, Inhabited

/-- A ghost beam: its core attributes plus `__ghost_idx`, which is absent
(`none`) until `create_ghost` or `reuse_blm` assigns it. -/
structure Ghost where
  core : BeamCore
  ghost_idx : Option ℤ
deriving Repr, DecidableEq, Inhabited

/-- A `Beam` object.  A primary (`__ghost = False`) additionally owns the
`__ghosts` list and `__ghost_count`; a ghost (`__ghost = True`) owns neither
(accessing them raises `AttributeError`) but may carry `__ghost_idx`.
The beams stored in a primary's `ghosts` list are always ghosts (they are
created by `create_ghost` with `ghost=True`), which the type reflects. -/
inductive Beam where
  | prim (core : BeamCore) (ghosts : List Ghost) (ghost_count : ℤ)
  | gho (g : Ghost)
deriving Repr, DecidableEq, Inhabited

def Beam.core : Beam → BeamCore
  | .prim c _ _ => c
  | .gho g => g.core

def Beam.withCore : Beam → BeamCore → Beam
  | .prim _ gs n, c => .prim c gs n
  | .gho g, c => .gho { g with core := c }

/-- The `ghost` property (the `__ghost` role flag). -/
def Beam.isGhost : Beam → Bool
  | .prim _ _ _ => false
  | .gho _ => true

/-- The stored `__ghost_idx` of a ghost, `none` for a primary or for a ghost
whose index was never assigned. -/
def Beam.ghostIdxStored : Beam → Option ℤ
  | .prim _ _ _ => none
  | .gho g => g.ghost_idx

/-- Keyword arguments of `Beam.__init__`, with the source's default values.
`sensitive_freq` defaults to `np.array([1.5e9])`. -/
structure BeamParams where
  az : ℚ := 0
  el : ℚ := 0
  polang : ℚ := 0
  name : Option String := none
  pol : String := "A"
  btype : String := "Gaussian"
  fwhm : Option ℚ := none
  lmax : Option ℤ := some 700
  mmax : Option ℤ := none
  sensitive_freq : List ℚ := [1500000000]
  dead : Bool := false
  ghost : Bool := false
  amplitude : ℚ := 1
  po_file : Option String := none
  eg_file : Option String := none
  cross_pol : Bool := true
  deconv_q : Bool := true
  normalize : Bool := true
  polang_error : ℚ := 0
  idx : Option ℤ := none
  symmetric : Bool := false

/-- The `mmax` property setter: `min(i for i in [mmax, self.lmax] if i is not None)`.
`self.lmax` is always an int once set, so the generator is never empty. -/
def setMmax (c : BeamCore) (v : Option ℤ) : BeamCore :=
  match v with
  | none => { c with mmax := c.lmax }
  | some m => { c with mmax := min m c.lmax }

/-- The `lmax` property setter on a fully constructed beam (so `self.fwhm`
exists and is a number, hence `is not None`):
if `val is None`, derive `int(2π / radians(fwhm/60) · 1.4)`, which simplifies
exactly to `int(30240 / fwhm)`; `fwhm == 0` makes the float quotient infinite
and `int(inf)` raises `OverflowError`.  Otherwise store `max(val, 0)`. -/
def setLmax (c : BeamCore) (v : Option ℤ) : Except PyErr BeamCore :=
  match v with
  | none =>
      if c.fwhm = 0 then .error .overflowError
      else .ok { c with lmax := pyTrunc (30240 / c.fwhm) }
  | some l => .ok { c with lmax := max l 0 }

/-- The `fwhm` property setter: if `val is None and self.lmax` (nonzero lmax is
truthy), store `degrees(1.4·2π/lmax)·60 = 30240/lmax`; otherwise store
`np.abs(val)`, which for `val = None` (with `lmax == 0`) raises `TypeError`. -/
def setFwhm (c : BeamCore) (v : Option ℚ) : Except PyErr BeamCore :=
  match v with
  | none =>
      if c.lmax ≠ 0 then .ok { c with fwhm := 30240 / (c.lmax : ℚ) }
      else .error .typeError
  | some w => .ok { c with fwhm := |w| }

/-- The `dead` property setter on a single ghost: it stores the value and then
tries to iterate `self.ghosts`, which raises `AttributeError` on a ghost (no
`__ghosts` attribute) and is swallowed, so only the ghost's own flag changes. -/
def Ghost.setDead (g : Ghost) (v : Bool) : Ghost :=
  { g with core := { g.core with dead := v } }

/-- The `dead` property setter on any beam: store the value; on a primary the
setter then assigns `ghost.dead = val` on every owned ghost (each such inner
assignment touches only that ghost, see `Ghost.setDead`). -/
def Beam.setDead : Beam → Bool → Beam
  | .prim c gs n, v => .prim { c with dead := v } (gs.map fun g => g.setDead v) n
  | .gho g, v => .gho (g.setDead v)

/-- Assigning `dead` through a reference to the i-th ghost owned by a primary:
in Python the list holds references, so the update is visible in the
primary's `ghosts` list at position i while everything else is untouched. -/
def setDeadGhostList : List Ghost → ℕ → Bool → List Ghost
  | [], _, _ => []
  | g :: gs, 0, v => g.setDead v :: gs
  | g :: gs, i + 1, v => g :: setDeadGhostList gs i v

/-- `setDeadGhostList` lifted to a primary beam (identity on a ghost, which
owns no ghost list). -/
def setDeadGhostAt : Beam → ℕ → Bool → Beam
  | .prim c gs n, i, v => .prim c (setDeadGhostList gs i v) n
  | .gho g, _, _ => .gho g

/-- `Beam.__init__`.  Assignment order follows the source:
plain attributes, then the `dead` setter (its ghost cascade hits
`AttributeError` — `__ghosts` is only created at the end of `__init__` — and is
swallowed), then the `lmax` setter — which, when `lmax is None`, evaluates
`self.fwhm` and raises `AttributeError` because `__fwhm` is not yet assigned —
then the `mmax` setter, then the `fwhm` setter, and finally the role fields. -/
def mkBeam (p : BeamParams) : Except PyErr Beam :=
  match p.lmax with
  | none => .error .attributeError
  | some v =>
    let c0 : BeamCore :=
      { az := p.az, el := p.el, polang := p.polang, name := p.name,
        pol := p.pol, btype := p.btype, dead := p.dead,
        amplitude := p.amplitude, po_file := p.po_file, eg_file := p.eg_file,
        cross_pol := p.cross_pol, lmax := max v 0, mmax := 0,
        sensitive_freq := p.sensitive_freq, fwhm := 0,
        deconv_q := p.deconv_q, normalize := p.normalize,
        polang_error := p.polang_error, idx := p.idx,
        symmetric := p.symmetric, blm := none }
    let c1 := setMmax c0 p.mmax
    match setFwhm c1 p.fwhm with
    | .error e => .error e
    | .ok c2 =>
        .ok (if p.ghost then Beam.gho { core := c2, ghost_idx := none }
             else Beam.prim c2 [] 0)

/-- Abstract content of the file named in `load_blm`:
either a dense `.npy` array (loaded without `IOError`), or a metadata-bearing
`.fits` file with `npol = len(hdulist) - 1` channels whose headers report the
azimuthal limits `mmax0`, `mmax2`, `mmax3` (per hdu; `none` = unspecified),
or a file readable under neither format. -/
inductive FileContent where
  | npy (ncomp : ℕ)
  | fits (npol : ℕ) (mmax0 mmax2 mmax3 : Option ℤ)
  | unreadable
deriving Repr, DecidableEq

/-- `Beam.load_blm`.  The `.npy` branch never touches `mmax`.  The `.fits`
branch reads the co-polar channel's limit; with three channels it first checks
`mmax == mmaxm2 == mmaxp2` (chained comparison: both equalities) and raises
`ValueError` on mismatch — before any attribute of the beam is updated.  Then
`if mmax is None: self.mmax = mmax` (the setter turns `None` into `self.lmax`),
`elif mmax < self.mmax: self.mmax = mmax` (the setter clamps by `lmax`).
On success the (opaquely rescaled/expanded) coefficient triplet is cached as a
freshly allocated object.  An unreadable file raises `IOError` after the single
format fallback. -/
def load_blm (c : BeamCore) (f : FileContent) (fresh : ℕ) :
    Except PyErr (ℕ × BeamCore × ℕ) :=
  match f with
  | .npy _ => .ok (fresh, { c with blm := some fresh }, fresh + 1)
  | .unreadable => .error .ioError
  | .fits npol m0 m2 m3 =>
      if npol = 3 ∧ ¬(m0 = m2 ∧ m2 = m3) then .error .valueError
      else
        let c1 := match m0 with
          | none => setMmax c none
          | some m => if m < c.mmax then setMmax c (some m) else c
        .ok (fresh, { c1 with blm := some fresh }, fresh + 1)

/-- The `blm` property getter: return the cache if present; otherwise dispatch
on `btype` — `Gaussian` synthesizes a triplet (`gen_gaussian_blm`, numerics
opaque, re-stores `btype = 'Gaussian'` which is a no-op here) and caches it;
`PO` / `EG` delegate to `load_blm` on the respective file (the map `fs` gives
each path's content); any other tag raises `ValueError`. -/
def getBlm (fs : Option String → FileContent) (c : BeamCore) (fresh : ℕ) :
    Except PyErr (ℕ × BeamCore × ℕ) :=
  match c.blm with
  | some a => .ok (a, c, fresh)
  | none =>
      if c.btype = "Gaussian" then
        .ok (fresh, { c with blm := some fresh }, fresh + 1)
      else if c.btype = "PO" then load_blm c (fs c.po_file) fresh
      else if c.btype = "EG" then load_blm c (fs c.eg_file) fresh
      else .error .valueError

/-- Python truthiness of an optional string (`None` and `''` are falsy). -/
def pyTruthyStr : Option String → Bool
  | none => false
  | some s => decide (s ≠ "")

/-- The name computed by `create_ghost` from the parent's name and `tag`. -/
def ghostNameOf (parentName : Option String) (tag : Option String) : Option String :=
  if pyTruthyStr tag then
    if pyTruthyStr parentName then
      some (parentName.getD "" ++ "_" ++ tag.getD "")
    else tag
  else parentName

/-- The `ghost_opts` dictionary built by `create_ghost` (the default path, no
keyword overrides): a snapshot of the parent's current configuration, with the
computed name, `ghost=True`, and defaults for everything `create_ghost` does
not copy (`idx`, `symmetric`, `sensitive_freq`). -/
def ghostOpts (c : BeamCore) (tag : Option String) : BeamParams :=
  { az := c.az, el := c.el, polang := c.polang,
    name := ghostNameOf c.name tag,
    pol := c.pol, btype := c.btype, fwhm := some c.fwhm,
    dead := c.dead, lmax := some c.lmax, mmax := some c.mmax,
    amplitude := c.amplitude, po_file := c.po_file, eg_file := c.eg_file,
    cross_pol := c.cross_pol, deconv_q := c.deconv_q,
    normalize := c.normalize, polang_error := c.polang_error,
    ghost := true }

/-- `Beam.create_ghost` (default keyword path): raise `RuntimeError`
immediately when called on a ghost; otherwise construct a ghost `Beam` from
the parent snapshot, assign `ghost.ghost_idx = self.ghost_count`, increment
`ghost_count`, and append the ghost to `ghosts`.  The `.ok` result is the
updated parent. -/
def create_ghost (parent : Beam) (tag : Option String) : Except PyErr Beam :=
  match parent with
  | .gho _ => .error .runtimeError
  | .prim c gs n =>
      match mkBeam (ghostOpts c tag) with
      | .error e => .error e
      | .ok (Beam.prim _ _ _) => .error .typeError
      | .ok (Beam.gho g) =>
          .ok (Beam.prim c (gs ++ [{ g with ghost_idx := some n }]) (n + 1))

/-- The `if partner.ghost and self.ghost` step of `reuse_blm`: copy the
partner's `ghost_idx` onto the target; reading an unassigned `__ghost_idx`
raises `AttributeError`. -/
def reuseGhostIdx : Beam → Beam → Except PyErr Beam
  | .gho g, .gho p =>
      match p.ghost_idx with
      | none => .error .attributeError
      | some j => .ok (.gho { g with ghost_idx := some j })
  | s, _ => .ok s

/-- `Beam.reuse_blm` (the `isinstance(partner, Beam)` guard holds by typing
here).  Source order: the ghost-to-ghost `ghost_idx` copy, then
`self.blm = partner.blm` — the right-hand side is the property getter, which
may synthesize/load and cache a triplet on the partner — then plain copies of
`btype` and `amplitude` and setter-mediated copies of `lmax` and `mmax`.
Returns the updated target, the (possibly cache-populated) partner, and the
fresh-id counter. -/
def reuse_blm (fs : Option String → FileContent) (self partner : Beam)
    (fresh : ℕ) : Except PyErr (Beam × Beam × ℕ) :=
  match reuseGhostIdx self partner with
  | .error e => .error e
  | .ok self1 =>
      match getBlm fs partner.core fresh with
      | .error e => .error e
      | .ok (a, pc, fr) =>
          match setLmax { self1.core with blm := some a, btype := pc.btype }
              (some pc.lmax) with
          | .error e => .error e
          | .ok c1 =>
              .ok (self1.withCore
                     { setMmax c1 (some pc.mmax) with amplitude := pc.amplitude },
                   partner.withCore pc, fr)

/-- `Beam.delete_blm`.  `del self.blm` on an absent cache raises
`AttributeError`, which is swallowed.  The method then evaluates
`any(self.ghosts)`: on a ghost this raises `AttributeError` (ghosts own no
`__ghosts` attribute) which is NOT caught and propagates — the ghost's own
cache has already been cleared at that point, which our error result need not
record because the claims only exercise ghosts with an absent cache.  On a
primary, when the ghost list is nonempty and cascading is requested, every
ghost's cache is cleared the same way. -/
def delete_blm (b : Beam) (del_ghosts_blm : Bool) : Except PyErr Beam :=
  match b with
  | .gho _ => .error .attributeError
  | .prim c gs n =>
      let c1 := { c with blm := none }
      if ¬gs.isEmpty ∧ del_ghosts_blm then
        .ok (.prim c1 (gs.map fun g => { g with core := { g.core with blm := none } }) n)
      else
        .ok (.prim c1 gs n)

/-- A predicate transformer for closed counterexample statements: the
computation succeeded and its result satisfies `P`. -/
def exceptHolds (P : α → Prop) : Except ε α → Prop
  | .ok a => P a
  | .error _ => False

/-- The core of `Beam()` with all-default arguments:
`lmax = 700`, `mmax` defaults to `lmax`, `fwhm` derived as `30240/700`. -/
def coreDefault : BeamCore :=
  { az := 0, el := 0, polang := 0, name := none, pol := "A",
    btype := "Gaussian", dead := false, amplitude := 1, po_file := none,
    eg_file := none, cross_pol := true, lmax := 700, mmax := 700,
    sensitive_freq := [1500000000], fwhm := 30240 / 700,
    deconv_q := true, normalize := true, polang_error := 0, idx := none,
    symmetric := false, blm := none }

/-- The core of `Beam(fwhm=43)` (default `lmax = 700`). -/
def core43 : BeamCore := { coreDefault with fwhm := 43 }

/-- A file lookup used by concrete witnesses (every path unreadable). -/
def fsEmpty : Option String → FileContent := fun _ => .unreadable

/-- A ghost with an assigned index and no cached coefficients. -/
def ghostNoBlm : Ghost := { core := coreDefault, ghost_idx := some 0 }

/-- A second concrete ghost, distinguishable from `ghostNoBlm`. -/
def ghostB : Ghost := { core := { coreDefault with az := 1 }, ghost_idx := some 1 }

/-- `coreDefault` after `beam.mmax = 10`: the band limits are `lmax = 700`,
`mmax = 10`. -/
def coreNarrow : BeamCore := { coreDefault with mmax := 10 }

/-- A beam whose `mmax` (700) exceeds its `lmax` (100), reached from the
default beam by `beam.blm` (caching id 7) followed by `beam.lmax = 100`,
and used as a `reuse_blm` partner. -/
def partnerBroken : Beam :=
  Beam.prim { coreDefault with lmax := 100, blm := some 7 } [] 0

/-- The partner core produced by a Gaussian `blm` access on `coreDefault`
with fresh-id counter 9: the triplet object with id 9 is cached. -/
def coreCached9 : BeamCore := { coreDefault with blm := some 9 }

theorem mkBeam_default : mkBeam {} = .ok (.prim coreDefault [] 0) := by
  rfl

theorem mkBeam_fwhm43 : mkBeam { fwhm := some 43 } = .ok (.prim core43 [] 0) := by
  rfl

theorem setMmax_le (c : BeamCore) (v : Option ℤ) :
    (setMmax c v).mmax ≤ (setMmax c v).lmax := by
  cases v with
  | none => simp [setMmax]
  | some m => simp [setMmax]

theorem setFwhm_keeps_band (c : BeamCore) (v : Option ℚ) (c' : BeamCore)
    (h : setFwhm c v = .ok c') : c'.mmax = c.mmax ∧ c'.lmax = c.lmax := by
  cases v with
  | none =>
      simp only [setFwhm] at h
      split at h
      · injection h with h; subst h; exact ⟨rfl, rfl⟩
      · cases h
  | some w =>
      simp only [setFwhm] at h
      injection h with h; subst h; exact ⟨rfl, rfl⟩

theorem load_blm_caches (c : BeamCore) (f : FileContent) (fr a : ℕ)
    (c' : BeamCore) (fr' : ℕ) (h : load_blm c f fr = .ok (a, c', fr')) :
    c'.blm = some a := by
  cases f with
  | npy k =>
      simp only [load_blm, Except.ok.injEq, Prod.mk.injEq] at h
      obtain ⟨h1, h2, h3⟩ := h
      subst h2; subst h1; rfl
  | unreadable => cases h
  | fits npol m0 m2 m3 =>
      simp only [load_blm] at h
      split at h
      · cases h
      · simp only [Except.ok.injEq, Prod.mk.injEq] at h
        obtain ⟨h1, h2, h3⟩ := h
        subst h2; subst h1; rfl

/-- C1 of the claims: constructing with `lmax=None` and a positive `fwhm` is
documented (in the spec and in the source's own docstring) to derive
`lmax = floor(1.4·2π/radians(fwhm/60)) = floor(30240/fwhm)`, but
`Beam.__init__` assigns `self.lmax` before `self.fwhm`, and the `lmax` setter
evaluates `self.fwhm`, so construction raises `AttributeError` instead.  The
intended derivation is only reachable through the `lmax` setter on an
already-constructed beam, where it indeed yields `floor(30240/43) = 703`. -/
theorem construction_with_unset_lmax_raises :
    mkBeam { lmax := none, fwhm := some 43 } = .error .attributeError ∧
    setLmax core43 none = .ok { core43 with lmax := 703 } ∧
    (703 : ℤ) = ⌊(30240 : ℚ) / 43⌋ := by
  have hfl : ⌊(30240 : ℚ) / 43⌋ = 703 := by
    rw [Int.floor_eq_iff]
    norm_num
  have hq : pyTrunc ((30240 : ℚ) / 43) = 703 := by
    unfold pyTrunc
    rw [if_neg (by norm_num)]
    exact hfl
  refine ⟨rfl, ?_, hfl.symm⟩
  have hstep : setLmax core43 none
      = .ok { core43 with lmax := pyTrunc ((30240 : ℚ) / 43) } := rfl
  rw [hstep, hq]

/-- C10 of the claims: for any non-None numeric value, the `fwhm` setter
stores `np.abs(val)` — also at construction time — so a negative supplied
`fwhm` is silently converted to its magnitude and the stored `fwhm` is
always non-negative. -/
theorem fwhm_stores_absolute_value :
    (∀ (c : BeamCore) (v : ℚ), setFwhm c (some v) = .ok { c with fwhm := |v| }) ∧
    (∀ (p : BeamParams) (v : ℚ) (b : Beam), p.fwhm = some v → mkBeam p = .ok b →
      b.core.fwhm = |v| ∧ 0 ≤ b.core.fwhm) := by
  constructor
  · intro c v; rfl
  · intro p v b hf hb
    cases hp : p.lmax with
    | none =>
        simp only [mkBeam, hp] at hb
        exact Except.noConfusion hb
    | some l =>
        simp only [mkBeam, hp, hf, setFwhm] at hb
        injection hb with hb
        subst hb
        constructor
        · cases hg : p.ghost <;> simp [hg, Beam.core]
        · cases hg : p.ghost <;> simp [hg, Beam.core]

/-- Closed witness for `fwhm_stores_absolute_value`: constructing a beam with
`fwhm = -5` stores `5`. -/
theorem fwhm_stores_absolute_value_witness :
    setFwhm coreDefault (some (-5)) = .ok { coreDefault with fwhm := |(-5 : ℚ)| } ∧
    (Beam.prim { coreDefault with fwhm := 5 } [] 0).core.fwhm = |(-5 : ℚ)| := by
  refine ⟨fwhm_stores_absolute_value.1 coreDefault (-5), ?_⟩
  exact (fwhm_stores_absolute_value.2 { fwhm := some (-5) } (-5)
    (Beam.prim { coreDefault with fwhm := 5 } [] 0) rfl rfl).1

/-- C8 of the claims: `create_ghost` called on a ghost raises `RuntimeError`
immediately, for any tag, before any state is touched — the error result
carries no updated beam, so the ghost is unchanged. -/
theorem create_ghost_on_ghost_raises :
    ∀ (g : Ghost) (tag : Option String),
      create_ghost (Beam.gho g) tag = .error .runtimeError := by
  intro g tag; rfl

/-- C9 of the claims: on a metadata-format file exposing three polarization
channels, `load_blm` raises the `ValueError` data-consistency error exactly
when the three reported azimuthal limits are not all equal (the chained
comparison `mmax == mmaxm2 == mmaxp2` fails); the raise happens before the
beam's `mmax` or `blm` are touched, so on error nothing is cached. -/
theorem load_blm_channel_consistency :
    ∀ (c : BeamCore) (fresh : ℕ) (m0 m2 m3 : Option ℤ),
      load_blm c (.fits 3 m0 m2 m3) fresh = .error .valueError
        ↔ ¬(m0 = m2 ∧ m2 = m3) := by
  intro c fresh m0 m2 m3
  rcases Decidable.em (m0 = m2 ∧ m2 = m3) with h | h
  · obtain ⟨h1, h2⟩ := h
    subst h1; subst h2
    simp [load_blm]
  · simp [load_blm, h]

/-- C4 of the claims: `create_ghost` on a primary constructs a ghost `Beam`
(role flag set), assigns it `ghost_idx` equal to the primary's `ghost_count`
before the call, appends it to the `ghosts` sequence, and increments
`ghost_count` by exactly one; this holds for every primary state, hence for
any number of successive calls. -/
theorem create_ghost_appends :
    ∀ (c : BeamCore) (gs : List Ghost) (n : ℤ) (tag : Option String),
      ∃ g : Ghost,
        create_ghost (Beam.prim c gs n) tag
          = .ok (Beam.prim c (gs ++ [g]) (n + 1)) ∧
        g.ghost_idx = some n ∧ (Beam.gho g).isGhost = true := by
  intro c gs n tag
  exact ⟨_, rfl, rfl, rfl⟩

theorem setDeadGhostList_length : ∀ (gs : List Ghost) (i : ℕ) (v : Bool),
    (setDeadGhostList gs i v).length = gs.length := by
  intro gs
  induction gs with
  | nil => intro i v; rfl
  | cons g gs ih =>
      intro i v
      cases i with
      | zero => rfl
      | succ i => simp [setDeadGhostList, ih]

theorem setDeadGhostList_getD_ne :
    ∀ (gs : List Ghost) (i j : ℕ) (v : Bool), j ≠ i →
      (setDeadGhostList gs i v).getD j default = gs.getD j default := by
  intro gs
  induction gs with
  | nil => intro i j v _; rfl
  | cons g gs ih =>
      intro i j v hne
      cases i with
      | zero =>
          cases j with
          | zero => exact absurd rfl hne
          | succ j => rfl
      | succ i =>
          cases j with
          | zero => rfl
          | succ j => exact ih i j v (fun h => hne (by rw [h]))

theorem setDeadGhostList_getD_eq :
    ∀ (gs : List Ghost) (i : ℕ) (v : Bool), i < gs.length →
      (setDeadGhostList gs i v).getD i default = (gs.getD i default).setDead v := by
  intro gs
  induction gs with
  | nil => intro i v h; exact absurd h (by simp)
  | cons g gs ih =>
      intro i v h
      cases i with
      | zero => rfl
      | succ i => exact ih i v (by simpa using h)

/-- C3 of the claims: setting `dead` on a primary stores the value and cascades
it to every owned ghost (and nothing else changes); setting `dead` through a
reference to one owned ghost flips only that ghost's own flag — the primary's
flag, the other attributes, and all sibling ghosts are untouched (ghosts have
no `__ghosts`, so the setter's cascade attempt is an `AttributeError` that is
swallowed). -/
theorem dead_cascade_cases :
    (∀ (c : BeamCore) (gs : List Ghost) (n : ℤ) (v : Bool),
      Beam.setDead (Beam.prim c gs n) v
        = Beam.prim { c with dead := v } (gs.map fun g => Ghost.setDead g v) n) ∧
    (∀ (g : Ghost) (v : Bool),
      Ghost.setDead g v = { g with core := { g.core with dead := v } }) ∧
    (∀ (c : BeamCore) (gs : List Ghost) (n : ℤ) (i : ℕ) (v : Bool),
      setDeadGhostAt (Beam.prim c gs n) i v
        = Beam.prim c (setDeadGhostList gs i v) n ∧
      (setDeadGhostAt (Beam.prim c gs n) i v).core = c) ∧
    (∀ (gs : List Ghost) (i j : ℕ) (v : Bool), j ≠ i →
      (setDeadGhostList gs i v).getD j default = gs.getD j default) ∧
    (∀ (gs : List Ghost) (i : ℕ) (v : Bool), i < gs.length →
      (setDeadGhostList gs i v).getD i default = (gs.getD i default).setDead v ∧
      (setDeadGhostList gs i v).length = gs.length) := by
  refine ⟨fun c gs n v => rfl, fun g v => rfl,
    fun c gs n i v => ⟨rfl, rfl⟩,
    setDeadGhostList_getD_ne, ?_⟩
  intro gs i v h
  exact ⟨setDeadGhostList_getD_eq gs i v h, setDeadGhostList_length gs i v⟩

/-- Closed witness for `dead_cascade_cases`: killing ghost 0 of a two-ghost
primary leaves ghost 1 and the primary untouched. -/
theorem dead_cascade_cases_witness :
    (setDeadGhostAt (Beam.prim coreDefault [ghostNoBlm, ghostB] 0 ) 0 true).core
      = coreDefault ∧
    (setDeadGhostList [ghostNoBlm, ghostB] 0 true).getD 1 default
      = [ghostNoBlm, ghostB].getD 1 default ∧
    (setDeadGhostList [ghostNoBlm, ghostB] 0 true).getD 0 default
      = ([ghostNoBlm, ghostB].getD 0 default).setDead true := by
  refine ⟨(dead_cascade_cases.2.2.1 coreDefault [ghostNoBlm, ghostB] 0 0 true).2,
    dead_cascade_cases.2.2.2.1 [ghostNoBlm, ghostB] 0 1 true (by decide), ?_⟩
  exact (dead_cascade_cases.2.2.2.2 [ghostNoBlm, ghostB] 0 true (by decide)).1

theorem Beam.core_withCore (b : Beam) (c : BeamCore) : (b.withCore c).core = c := by
  cases b <;> rfl

/-- C2 counterexample: the default beam has `lmax = mmax = 700`; assigning
`beam.lmax = 100` afterwards goes through the `lmax` setter, which does not
re-clamp `mmax`, leaving `mmax = 700 > 100 = lmax`.  So `mmax ≤ lmax` is NOT
preserved by every operation. -/
theorem lowering_lmax_breaks_mmax :
    mkBeam {} = .ok (.prim coreDefault [] 0) ∧
    setLmax coreDefault (some 100) = .ok { coreDefault with lmax := 100 } ∧
    ¬({ coreDefault with lmax := 100 }.mmax ≤ { coreDefault with lmax := 100 }.lmax) := by
  refine ⟨mkBeam_default, rfl, by decide⟩

/-- C2 (amended): `mmax ≤ lmax` holds after every successful construction and
after every `mmax` assignment, and is preserved by `load_blm` (from any state
already satisfying it) and re-established by `reuse_blm`; the one operation
that can break it is a later assignment to `lmax`, whose setter does not
re-clamp `mmax` (see `lowering_lmax_breaks_mmax`). -/
theorem mmax_le_lmax_invariant :
    (∀ (p : BeamParams) (b : Beam), mkBeam p = .ok b →
      b.core.mmax ≤ b.core.lmax) ∧
    (∀ (c : BeamCore) (v : Option ℤ), (setMmax c v).mmax ≤ (setMmax c v).lmax) ∧
    (∀ (c : BeamCore) (f : FileContent) (fr a : ℕ) (c' : BeamCore) (fr' : ℕ),
      c.mmax ≤ c.lmax → load_blm c f fr = .ok (a, c', fr') →
      c'.mmax ≤ c'.lmax) ∧
    (∀ (fs : Option String → FileContent) (s p s' p' : Beam) (fr fr' : ℕ),
      reuse_blm fs s p fr = .ok (s', p', fr') →
      s'.core.mmax ≤ s'.core.lmax) := by
  refine ⟨?_, setMmax_le, ?_, ?_⟩
  · intro p b hb
    cases hp : p.lmax with
    | none =>
        simp only [mkBeam, hp] at hb
        exact Except.noConfusion hb
    | some l =>
        simp only [mkBeam, hp] at hb
        split at hb
        · exact Except.noConfusion hb
        · rename_i c2 heq
          injection hb with hb
          subst hb
          obtain ⟨hm, hl⟩ := setFwhm_keeps_band _ _ _ heq
          have hbase := setMmax_le
            { az := p.az, el := p.el, polang := p.polang, name := p.name,
              pol := p.pol, btype := p.btype, dead := p.dead,
              amplitude := p.amplitude, po_file := p.po_file,
              eg_file := p.eg_file, cross_pol := p.cross_pol,
              lmax := max l 0, mmax := 0,
              sensitive_freq := p.sensitive_freq, fwhm := 0,
              deconv_q := p.deconv_q, normalize := p.normalize,
              polang_error := p.polang_error, idx := p.idx,
              symmetric := p.symmetric, blm := none } p.mmax
          have hcore : (if p.ghost = true then
                Beam.gho { core := c2, ghost_idx := none }
              else Beam.prim c2 [] 0).core = c2 := by
            by_cases hg : p.ghost = true
            · rw [if_pos hg]; rfl
            · rw [if_neg hg]; rfl
          rw [hcore, hm, hl]
          exact hbase
  · intro c f fr a c' fr' hinv h
    cases f with
    | npy k =>
        simp only [load_blm, Except.ok.injEq, Prod.mk.injEq] at h
        obtain ⟨h1, h2, h3⟩ := h
        subst h2
        exact hinv
    | unreadable => cases h
    | fits npol m0 m2 m3 =>
        simp only [load_blm] at h
        split at h
        · cases h
        · simp only [Except.ok.injEq, Prod.mk.injEq] at h
          obtain ⟨h1, h2, h3⟩ := h
          subst h2
          cases m0 with
          | none => exact setMmax_le c none
          | some m =>
              by_cases hlt : m < c.mmax
              · simp only [if_pos hlt]
                exact setMmax_le c (some m)
              · simp only [if_neg hlt]
                exact hinv
  · intro fs s p s' p' fr fr' h
    unfold reuse_blm at h
    split at h
    · cases h
    · rename_i self1 hr
      split at h
      · cases h
      · rename_i a pc fr2 hg
        split at h
        · cases h
        · rename_i c1 hs
          simp only [Except.ok.injEq, Prod.mk.injEq] at h
          obtain ⟨h1, h2, h3⟩ := h
          subst h1
          rw [Beam.core_withCore]
          exact setMmax_le c1 (some pc.mmax)

/-- Closed witness for `mmax_le_lmax_invariant`: the default construction and
a narrowing load both satisfy the invariant. -/
theorem mmax_le_lmax_invariant_witness :
    coreDefault.mmax ≤ coreDefault.lmax ∧
    ({ coreNarrow with blm := some 0 } : BeamCore).mmax
      ≤ ({ coreNarrow with blm := some 0 } : BeamCore).lmax := by
  constructor
  · exact mmax_le_lmax_invariant.1 {} (.prim coreDefault [] 0) mkBeam_default
  · exact mmax_le_lmax_invariant.2.2.1 coreNarrow (.npy 1) 0 0
      { coreNarrow with blm := some 0 } 1 (by decide) rfl

theorem blm_erase_of_none {c : BeamCore} (h : c.blm = none) :
    { c with blm := none } = c := by
  rw [← h]

theorem ghosts_blm_erase_of_none : ∀ (gs : List Ghost),
    (∀ g ∈ gs, g.core.blm = none) →
    (gs.map fun g => { g with core := { g.core with blm := none } }) = gs := by
  intro gs h
  induction gs with
  | nil => rfl
  | cons g gs ih =>
      simp only [List.map_cons]
      have hg : g.core.blm = none := h g (by simp)
      have hone : ({ g with core := { g.core with blm := none } } : Ghost) = g := by
        rw [← hg]
      rw [hone, ih (fun g' hg' => h g' (by simp [hg']))]

/-- C5 counterexample: a ghost with no cached triplet.  `delete_blm` on it
does NOT return normally: after the swallowed `del self.blm`, the method
evaluates `any(self.ghosts)` and a ghost has no `__ghosts` attribute, so
`AttributeError` propagates — contradicting the claim for ghost beams. -/
theorem delete_blm_on_ghost_raises :
    ghostNoBlm.core.blm = none ∧
    delete_blm (Beam.gho ghostNoBlm) true = .error .attributeError :=
  ⟨rfl, rfl⟩

/-- C5 (amended): invalidating an absent cache is a silent no-op on a primary
beam (state unchanged, normal return; stated with the ghosts' caches also
absent so that the optional cascade changes nothing either), but on a ghost
beam `delete_blm` always raises `AttributeError` when it reaches the
`any(self.ghosts)` cascade check, because ghosts own no ghost list. -/
theorem delete_blm_absent_cache :
    (∀ (c : BeamCore) (gs : List Ghost) (n : ℤ) (dg : Bool),
      c.blm = none → (∀ g ∈ gs, g.core.blm = none) →
      delete_blm (Beam.prim c gs n) dg = .ok (Beam.prim c gs n)) ∧
    (∀ (g : Ghost) (dg : Bool),
      delete_blm (Beam.gho g) dg = .error .attributeError) := by
  constructor
  · intro c gs n dg hc hgs
    simp only [delete_blm]
    rw [blm_erase_of_none hc, ghosts_blm_erase_of_none gs hgs]
    split <;> rfl
  · intro g dg; rfl

/-- Closed witness for `delete_blm_absent_cache`: a primary with one cache-less
ghost is returned unchanged. -/
theorem delete_blm_absent_cache_witness :
    delete_blm (Beam.prim coreDefault [ghostNoBlm] 0) true
      = .ok (Beam.prim coreDefault [ghostNoBlm] 0) := by
  refine delete_blm_absent_cache.1 coreDefault [ghostNoBlm] 0 true rfl ?_
  intro g hg
  simp only [List.mem_singleton] at hg
  rw [hg]
  rfl

/-- C6 counterexample: a beam with `lmax = 700`, `mmax = 10` (reached via
`beam.mmax = 10`).  Loading a metadata file whose co-polar channel reports an
unspecified (`None`) azimuthal limit executes `self.mmax = None`, and the
`mmax` setter resolves `None` to `lmax`, so `mmax` jumps from 10 to 700:
the claim says an unspecified file limit leaves `mmax` unchanged, but the
code widens it. -/
theorem load_blm_widens_mmax :
    setMmax coreDefault (some 10) = coreNarrow ∧
    coreNarrow.mmax = 10 ∧
    load_blm coreNarrow (FileContent.fits 1 none none none) 0
      = .ok (0, { coreNarrow with mmax := 700, blm := some 0 }, 1) ∧
    ({ coreNarrow with mmax := 700, blm := some 0 } : BeamCore).mmax
      ≠ coreNarrow.mmax := by
  exact ⟨rfl, rfl, rfl, by decide⟩

/-- C6 (amended): on a metadata-format file (consistency check passing),
`load_blm` leaves `lmax` alone and updates `mmax` as follows: a specified file
limit smaller than the current `mmax` narrows it (clamped by `lmax` through
the setter); a specified limit greater or equal leaves it unchanged; but an
UNSPECIFIED file limit resets `mmax` to `lmax`, which can widen it. -/
theorem load_blm_mmax_update :
    ∀ (c : BeamCore) (fr npol : ℕ) (m0 m2 m3 : Option ℤ),
      (npol = 3 → m0 = m2 ∧ m2 = m3) →
      load_blm c (.fits npol m0 m2 m3) fr
        = .ok (fr, { (match m0 with
                      | none => setMmax c none
                      | some m => if m < c.mmax then setMmax c (some m) else c)
                     with blm := some fr }, fr + 1) := by
  intro c fr npol m0 m2 m3 h
  simp only [load_blm]
  rw [if_neg (fun hc => hc.2 (h hc.1))]

/-- Closed witness for `load_blm_mmax_update`: a single-channel file with
specified limit 5 narrows the default beam's `mmax` to 5. -/
theorem load_blm_mmax_update_witness :
    load_blm coreDefault (.fits 1 (some 5) none none) 3
      = .ok (3, { (if (5 : ℤ) < coreDefault.mmax then setMmax coreDefault (some 5)
                   else coreDefault) with blm := some 3 }, 4) := by
  exact load_blm_mmax_update coreDefault 3 1 (some 5) none none
    (fun h => absurd h (by decide))

theorem getBlm_caches (fs : Option String → FileContent) (c : BeamCore)
    (fr a : ℕ) (pc : BeamCore) (fr' : ℕ)
    (h : getBlm fs c fr = .ok (a, pc, fr')) : pc.blm = some a := by
  simp only [getBlm] at h
  split at h
  · rename_i a0 hc
    simp only [Except.ok.injEq, Prod.mk.injEq] at h
    obtain ⟨h1, h2, h3⟩ := h
    subst h2; subst h1
    exact hc
  · split at h
    · simp only [Except.ok.injEq, Prod.mk.injEq] at h
      obtain ⟨h1, h2, h3⟩ := h
      subst h2; subst h1; rfl
    · split at h
      · exact load_blm_caches _ _ _ _ _ _ h
      · split at h
        · exact load_blm_caches _ _ _ _ _ _ h
        · exact Except.noConfusion h

theorem reuse_blm_ok_of_ghostIdx (fs : Option String → FileContent)
    (self partner self1 : Beam) (fresh a : ℕ) (pc : BeamCore) (fr : ℕ)
    (hr : reuseGhostIdx self partner = .ok self1)
    (hget : getBlm fs partner.core fresh = .ok (a, pc, fr)) :
    reuse_blm fs self partner fresh
      = .ok (self1.withCore
          { setMmax
              { self1.core with
                blm := some a, btype := pc.btype, lmax := max pc.lmax 0 }
              (some pc.mmax)
            with amplitude := pc.amplitude },
        partner.withCore pc, fr) := by
  unfold reuse_blm
  rw [hr, hget]
  rfl

/-- C7 counterexample: a partner whose `mmax` (700) exceeds its `lmax` (100)
— reachable by caching `blm` (object id 7) and then assigning
`partner.lmax = 100`.  After `reuse_blm`, the target's `mmax` went through the
setter, which clamps by the newly copied `lmax`, so the target gets
`mmax = 100 ≠ 700 = partner.mmax`: the claim that the target's `mmax` always
equals the partner's is false. -/
theorem reuse_blm_clamps_mmax :
    getBlm fsEmpty coreDefault 7
      = .ok (7, { coreDefault with blm := some 7 }, 8) ∧
    setLmax { coreDefault with blm := some 7 } (some 100)
      = .ok partnerBroken.core ∧
    exceptHolds
      (fun r => r.1.core.mmax = 100 ∧ partnerBroken.core.mmax = 700 ∧
        r.1.core.mmax ≠ partnerBroken.core.mmax)
      (reuse_blm fsEmpty (Beam.prim coreDefault [] 0) partnerBroken 8) := by
  refine ⟨rfl, rfl, ?_⟩
  exact ⟨by decide, by decide, by decide⟩

/-- C7 (amended): after `reuse_blm(partner)` — with the partner's `blm` getter
succeeding, `partner.lmax ≥ 0` (true of every constructed beam), and the
ghost-to-ghost case requiring the partner's `ghost_idx` to be assigned — the
target holds the very same triplet object as the partner (same object id:
shared by reference, not duplicated), and copies `btype`, `lmax` and
`amplitude`; `mmax` however is copied through the `mmax` setter and therefore
equals `min(partner.mmax, partner.lmax)`, which coincides with the partner's
`mmax` exactly when the partner satisfies `mmax ≤ lmax`; if both beams are
ghosts, the target takes the partner's `ghost_idx`. -/
theorem reuse_blm_shares_and_copies :
    ∀ (fs : Option String → FileContent) (self partner : Beam) (fresh a : ℕ)
      (pc : BeamCore) (fr : ℕ),
      getBlm fs partner.core fresh = .ok (a, pc, fr) →
      0 ≤ pc.lmax →
      (self.isGhost = false ∨ partner.isGhost = false ∨
        partner.ghostIdxStored ≠ none) →
      ∃ self' : Beam,
        reuse_blm fs self partner fresh
          = .ok (self', partner.withCore pc, fr) ∧
        self'.core.blm = some a ∧ pc.blm = some a ∧
        self'.core.btype = pc.btype ∧ self'.core.lmax = pc.lmax ∧
        self'.core.mmax = min pc.mmax pc.lmax ∧
        self'.core.amplitude = pc.amplitude ∧
        (self.isGhost = true → partner.isGhost = true →
          self'.ghostIdxStored = partner.ghostIdxStored) := by
  intro fs self partner fresh a pc fr hget hl hgho
  have hpc : pc.blm = some a := getBlm_caches fs partner.core fresh a pc fr hget
  have hmax : max pc.lmax 0 = pc.lmax := max_eq_left hl
  cases self with
  | prim sc sgs sn =>
      have hr : reuseGhostIdx (Beam.prim sc sgs sn) partner
          = .ok (Beam.prim sc sgs sn) := by cases partner <;> rfl
      refine ⟨_, reuse_blm_ok_of_ghostIdx fs _ partner _ fresh a pc fr hr hget,
        rfl, hpc, rfl, hmax, ?_, rfl, ?_⟩
      · show min pc.mmax (max pc.lmax 0) = min pc.mmax pc.lmax
        rw [hmax]
      · intro hg1 _
        exact absurd hg1 (by simp [Beam.isGhost])
  | gho g =>
      cases partner with
      | prim pc2 pgs pn =>
          have hr : reuseGhostIdx (Beam.gho g) (Beam.prim pc2 pgs pn)
              = .ok (Beam.gho g) := rfl
          refine ⟨_, reuse_blm_ok_of_ghostIdx fs _ _ _ fresh a pc fr hr hget,
            rfl, hpc, rfl, hmax, ?_, rfl, ?_⟩
          · show min pc.mmax (max pc.lmax 0) = min pc.mmax pc.lmax
            rw [hmax]
          · intro _ hg2
            exact absurd hg2 (by simp [Beam.isGhost])
      | gho p =>
          cases hpi : p.ghost_idx with
          | none =>
              exfalso
              rcases hgho with h | h | h
              · simp [Beam.isGhost] at h
              · simp [Beam.isGhost] at h
              · exact h (by simp [Beam.ghostIdxStored, hpi])
          | some j =>
              have hr : reuseGhostIdx (Beam.gho g) (Beam.gho p)
                  = .ok (Beam.gho { g with ghost_idx := some j }) := by
                simp [reuseGhostIdx, hpi]
              refine ⟨_, reuse_blm_ok_of_ghostIdx fs _ _ _ fresh a pc fr hr hget,
                rfl, hpc, rfl, hmax, ?_, rfl, ?_⟩
              · show min pc.mmax (max pc.lmax 0) = min pc.mmax pc.lmax
                rw [hmax]
              · intro _ _
                show (some j : Option ℤ) = p.ghost_idx
                exact hpi.symm

/-- Closed witness for `reuse_blm_shares_and_copies`: ghost-to-ghost reuse
from a Gaussian partner whose triplet gets computed (object id 9) during the
call; the target ends up sharing object 9 and the partner's `ghost_idx`. -/
theorem reuse_blm_shares_and_copies_witness :
    ∃ self' : Beam,
      reuse_blm fsEmpty (Beam.gho ghostB) (Beam.gho ghostNoBlm) 9
        = .ok (self', (Beam.gho ghostNoBlm).withCore coreCached9, 10) ∧
      self'.core.blm = some 9 ∧ coreCached9.blm = some 9 ∧
      self'.core.btype = coreCached9.btype ∧
      self'.core.lmax = coreCached9.lmax ∧
      self'.core.mmax = min coreCached9.mmax coreCached9.lmax ∧
      self'.core.amplitude = coreCached9.amplitude ∧
      ((Beam.gho ghostB).isGhost = true →
        (Beam.gho ghostNoBlm).isGhost = true →
        self'.ghostIdxStored = (Beam.gho ghostNoBlm).ghostIdxStored) := by
  exact reuse_blm_shares_and_copies fsEmpty (Beam.gho ghostB)
    (Beam.gho ghostNoBlm) 9 9 coreCached9 10 rfl (by decide)
    (Or.inr (Or.inr (by decide)))
